import Mathlib

/-!
Shallow embedding of the face-emotion service (src/main.py) in Lean 4.

Modelling conventions:
  * Python strings are Lean `String`; float confidences are modelled as `ℚ`
    (every IEEE double the code can see is a rational, and the arithmetic
    in the code, division by 10 and rounding, is exact on rationals).
  * Python dicts with insertion order (the emotion-score mappings returned by
    the backend) are association lists `List (String × ℚ)` in iteration order.
  * Raised exceptions are `Except` errors; `try/except` blocks become matches
    on the `Except` value of the body.
  * The external DeepFace backend call is an abstract outcome parameter: it
    either returns a value of one of its two documented shapes or raises.
  * Python `round` is round-half-to-even on exact values, modelled by
    `pyRound` below.
-/

namespace FaceEmotion

/-- Substring test, modelling the Python expression
`"Face could not be detected" in str(e)`. -/
def strContains (hay pat : String) : Bool :=
  (List.range (hay.data.length + 1)).any
    (fun i => ((hay.data.drop i).take pat.data.length) == pat.data)

/-- Lowercasing, modelling Python `str.lower()` (ASCII range, which is all the
code compares). -/
def strLower (s : String) : String := String.mk (s.data.map Char.toLower)

/-- Split a character list on the path separator. -/
def splitSlash (l : List Char) : List (List Char) :=
  l.foldr
    (fun c acc =>
      if c = '/' then [] :: acc
      else
        match acc with
        | s :: rest => (c :: s) :: rest
        | [] => [[c]])
    [[]]

/-- The components of a path after pathlib parsing: split on the separator,
drop empty components and single dots (pathlib drops both while parsing). -/
def pathSegments (filename : String) : List (List Char) :=
  (splitSlash filename.data).filter (fun s => s != [] && s != ['.'])

/-- Modelling `pathlib.Path(filename).name`: the final component. -/
def pathName (filename : String) : List Char :=
  (pathSegments filename).getLastD []

/-- Modelling `pathlib.Path(filename).suffix`: pathlib takes the name, finds
the last dot at index i, and returns `name[i:]` when `0 < i < len(name) - 1`,
else the empty string. -/
def pathSuffix (filename : String) : String :=
  let name := pathName filename
  match ((List.range name.length).filter
      (fun i => name.getD i ' ' == '.')).getLast? with
  | none => ""
  | some i =>
      if 0 < i ∧ i < name.length - 1 then String.mk (name.drop i) else ""

/-- `SUPPORTED_FORMATS` from src/main.py line 22 (a Python set literal;
membership is what the code uses, so a list with `contains` is faithful). -/
def SUPPORTED_FORMATS : List String :=
  [".jpg", ".jpeg", ".png", ".bmp", ".tiff", ".webp"]

/-- `validate_image_format` from src/main.py lines 24-26:
`Path(filename).suffix.lower() in SUPPORTED_FORMATS`. -/
def validate_image_format (filename : String) : Bool :=
  SUPPORTED_FORMATS.contains (strLower (pathSuffix filename))

/-- Python `round` on an exact value: round half to even. -/
def pyRound (q : ℚ) : ℤ :=
  if q - (⌊q⌋ : ℚ) < 1 / 2 then ⌊q⌋
  else if 1 / 2 < q - (⌊q⌋ : ℚ) then ⌊q⌋ + 1
  else if ⌊q⌋ % 2 = 0 then ⌊q⌋ else ⌊q⌋ + 1

/-- Lines 67-68 of src/main.py:
`level = int(round(confidence / 10)); level = max(1, min(level, 10))`. -/
def levelOf (confidence : ℚ) : ℤ :=
  max 1 (min (pyRound (confidence / 10)) 10)

/-- An emotion-score mapping: dict from label to confidence, in iteration
order. -/
abbrev EmotionScores := List (String × ℚ)

/-- One DeepFace result object; only its emotion mapping is read by the code. -/
structure ResultObj where
  emotion : EmotionScores
deriving DecidableEq

/-- The two admissible return shapes of `DeepFace.analyze` (line 60: the code
tests `isinstance(result, list)`). -/
inductive BackendReturn where
  | single (r : ResultObj)
  | seq (rs : List ResultObj)
deriving DecidableEq

/-- Outcome of the backend call: a returned value, a raised `ValueError`, or
any other raised exception. -/
inductive BackendOutcome where
  | ret (r : BackendReturn)
  | raiseValueError (msg : String)
  | raiseOther (msg : String)
deriving DecidableEq

/-- Lines 60-63: the emotion mapping of `result[0]` if a list else of
`result`. `none` models the IndexError on an empty list. -/
def extractEmotions : BackendReturn → Option EmotionScores
  | .single r => some r.emotion
  | .seq rs => rs.head?.map ResultObj.emotion

/-- The loop inside Python `max(emotions, key=emotions.get)`: keep the current
best, replace only on strictly greater, so the first maximum encountered
wins. -/
def maxFrom (best : String × ℚ) : List (String × ℚ) → String × ℚ
  | [] => best
  | y :: ys => maxFrom (if best.2 < y.2 then y else best) ys

/-- Line 64, `max(emotions, key=emotions.get)`: `none` models the
`ValueError` Python `max` raises on an empty dict. -/
def dominantPair : EmotionScores → Option (String × ℚ)
  | [] => none
  | x :: xs => some (maxFrom x xs)

/-- Dict lookup `emotions[dominant_emotion]` (first binding of the key). -/
def pyGet (es : EmotionScores) (k : String) : Option ℚ :=
  (es.find? (fun p => p.1 == k)).map Prod.snd

/-- An HTTPException value: status code and detail message. -/
structure HTTPExc where
  status_code : ℕ
  detail : String
deriving DecidableEq

/-- A raised Python exception as the orchestrator can observe it. -/
inductive PyError where
  | valueError (msg : String)
  | httpException (e : HTTPExc)
  | other (msg : String)
deriving DecidableEq

/-- The substring tested on line 72. -/
def FACE_MSG : String := "Face could not be detected"

/-- The message of the `ValueError` CPython `max` raises on an empty
sequence. -/
def MAX_EMPTY_MSG : String := "max() arg is an empty sequence"

/-- The `try` body of `detect_emotion` (lines 54-70): backend call, shape
normalization, dominant-emotion selection, level normalization. Errors are
the exceptions the body can raise. -/
def detectBody (outcome : BackendOutcome) : Except PyError (String × ℤ) :=
  match outcome with
  | .raiseValueError m => .error (.valueError m)
  | .raiseOther m => .error (.other m)
  | .ret r =>
    match extractEmotions r with
    | none => .error (.other "list index out of range")
    | some es =>
      match dominantPair es with
      | none => .error (.valueError MAX_EMPTY_MSG)
      | some d =>
        match pyGet es d.1 with
        | none => .error (.other "KeyError")
        | some c => .ok (d.1, levelOf c)

/-- `detect_emotion` (lines 51-80) with its two `except` clauses: a
`ValueError` whose text mentions the face substring becomes HTTP 400 with the
fixed no-face detail, any other `ValueError` becomes HTTP 400 with the
message of the backend passed through, and every other exception becomes
HTTP 500 with a
generic message. -/
def detect_emotion (outcome : BackendOutcome) : Except HTTPExc (String × ℤ) :=
  match detectBody outcome with
  | .ok v => .ok v
  | .error (.valueError m) =>
      if strContains m FACE_MSG then
        .error ⟨400, "No face detected in the image"⟩
      else
        .error ⟨400, m⟩
  | .error _ => .error ⟨500, "Internal error during emotion analysis"⟩

/-- `save_uploaded_file` (lines 28-40) as a function of its I/O outcome: on
success the temp-file path is returned; any exception is caught and re-raised
as HTTP 500 with a generic detail (line 40). -/
def save_uploaded_file (res : Except Unit String) : Except HTTPExc String :=
  match res with
  | .ok path => .ok path
  | .error _ => .error ⟨500, "Failed to save uploaded file"⟩

/-- What the endpoint returns to the caller: the 200 JSON body, or the error
response FastAPI builds from a raised HTTPException. -/
inductive Response where
  | success (emotion : String) (level : ℤ)
  | failure (status : ℕ) (detail : String)
deriving DecidableEq

/-- The detail string of line 103. -/
def UNSUPPORTED_MSG : String :=
  "Unsupported image format. Supported formats: .jpg, .jpeg, .png, .bmp, .tiff, .webp"

/-- Observable effects of one request: the response, how many times
`save_uploaded_file` was invoked, and the list of paths `cleanup_temp_file`
was invoked on, in order. -/
structure RunResult where
  response : Response
  saveCalls : ℕ
  cleanups : List String
deriving DecidableEq

/-- Python truthiness of the `temp_file_path` string in `if temp_file_path:`
(line 116); the empty string is falsy. -/
def pyTruthy (p : String) : Bool := p != ""

/-- The `analyze_emotion` endpoint handler (lines 94-117). Parameters stand
for the outcomes of its two effectful steps: `saveRes` is the I/O outcome
inside `save_uploaded_file`, and `detectResult` is the outcome of the
`detect_emotion` call as the orchestrator observes it (a value, a raised
HTTPException, or any other exception). The `finally` block invokes
`cleanup_temp_file` exactly when `temp_file_path` was assigned a truthy
value; `except HTTPException` re-raises, `except Exception` maps to HTTP 500
"Internal server error". -/
def analyze_emotion (filename : String) (saveRes : Except Unit String)
    (detectResult : Except PyError (String × ℤ)) : RunResult :=
  if validate_image_format filename = false then
    ⟨.failure 400 UNSUPPORTED_MSG, 0, []⟩
  else
    match save_uploaded_file saveRes with
    | .error e => ⟨.failure e.status_code e.detail, 1, []⟩
    | .ok path =>
      let resp : Response :=
        match detectResult with
        | .ok (emo, lvl) => .success emo lvl
        | .error (.httpException e) => .failure e.status_code e.detail
        | .error _ => .failure 500 "Internal server error"
      ⟨resp, 1, if pyTruthy path then [path] else []⟩

/-- A raised HTTPException from `detect_emotion` reaches the orchestrator as
a Python exception of type HTTPException. -/
def liftHTTP (r : Except HTTPExc (String × ℤ)) : Except PyError (String × ℤ) :=
  match r with
  | .ok v => .ok v
  | .error e => .error (.httpException e)

/-- The endpoint with `detect_emotion` plugged in. -/
def runRequest (filename : String) (saveRes : Except Unit String)
    (backend : BackendOutcome) : RunResult :=
  analyze_emotion filename saveRes (liftHTTP (detect_emotion backend))

/-- Filesystem state for the cleanup model: the set of existing paths, plus
the paths whose removal fails for an external reason (e.g. permissions),
modelling that `os.remove` can raise even on an existing file. -/
structure FS where
  files : List String
  failing : List String
deriving DecidableEq

/-- `os.path.exists` (line 45). -/
def os_path_exists (fs : FS) (p : String) : Bool := fs.files.contains p

/-- `os.remove` (line 46): raises on a missing path or on an external
failure, otherwise removes the path. -/
def os_remove (fs : FS) (p : String) : Except String FS :=
  if fs.files.contains p = false then .error "FileNotFoundError"
  else if fs.failing.contains p then .error "PermissionError"
  else .ok ⟨fs.files.filter (fun q => q != p), fs.failing⟩

/-- The `try` body of `cleanup_temp_file` (lines 44-47):
`if os.path.exists(file_path): os.remove(file_path)`. -/
def cleanupBody (fs : FS) (p : String) : Except String FS :=
  if os_path_exists fs p then os_remove fs p else .ok fs

/-- The filesystem state after `cleanup_temp_file`: a failure inside the body
is swallowed, leaving the state unchanged. -/
def cleanupState (fs : FS) (p : String) : FS :=
  match cleanupBody fs p with
  | .ok fs2 => fs2
  | .error _ => fs

/-- `cleanup_temp_file` (lines 42-49): the body runs under
`try/except Exception`, every exception is logged and swallowed, so the call
always returns normally. -/
def cleanup_temp_file (fs : FS) (p : String) : Except String FS :=
  match cleanupBody fs p with
  | .ok fs2 => .ok fs2
  | .error _ => .ok fs

/-! ### Helper lemmas -/

theorem pyRound_le_floor_add_one (q : ℚ) : pyRound q ≤ ⌊q⌋ + 1 := by
  unfold pyRound
  split_ifs <;> omega

theorem floor_le_pyRound (q : ℚ) : ⌊q⌋ ≤ pyRound q := by
  unfold pyRound
  split_ifs <;> omega

theorem levelOf_bounds (c : ℚ) : 1 ≤ levelOf c ∧ levelOf c ≤ 10 := by
  unfold levelOf
  constructor
  · exact le_max_left 1 _
  · have h : min (pyRound (c / 10)) 10 ≤ 10 := min_le_right _ _
    omega

theorem pyRound_half_up (q : ℚ) (f : ℤ) (hf : ⌊q⌋ = f)
    (h : 1 / 2 ≤ q - (f : ℚ)) (hodd : f % 2 = 1) : pyRound q = f + 1 := by
  unfold pyRound
  rw [hf]
  split_ifs with h1 h2 h3
  · linarith
  · rfl
  · omega
  · rfl

/-- Any value the body of `detect_emotion` returns has a level produced by
the normalizer. -/
theorem detectBody_ok_level (oc : BackendOutcome) (e : String) (l : ℤ)
    (h : detectBody oc = .ok (e, l)) : ∃ c, l = levelOf c := by
  unfold detectBody at h
  split at h
  · exact Except.noConfusion h
  · exact Except.noConfusion h
  · split at h
    · exact Except.noConfusion h
    · split at h
      · exact Except.noConfusion h
      · split at h
        · exact Except.noConfusion h
        · injection h with h2
          injection h2 with h3 h4
          exact ⟨_, h4.symm⟩

/-- `detect_emotion` returns normally exactly when its body does, with the
same value. -/
theorem detect_emotion_ok (oc : BackendOutcome) (v : String × ℤ) :
    detect_emotion oc = .ok v ↔ detectBody oc = .ok v := by
  unfold detect_emotion
  rcases hb : detectBody oc with e | v2
  · rcases e with m | e | m
    · dsimp only
      split_ifs <;> simp
    · simp
    · simp
  · simp

/-! ### Claims -/

/-- C3: for every dominant-emotion confidence c in [0,100], the level is
clamp(round(c/10), 1, 10); for every c in [0,10) the level is 1, and for
every c in [95,100] the level is 10 (round is Python round, half to even). -/
theorem level_normalizer_clamp :
    (∀ c : ℚ, 0 ≤ c → c ≤ 100 →
      levelOf c = min (max (pyRound (c / 10)) 1) 10) ∧
    (∀ c : ℚ, 0 ≤ c → c < 10 → levelOf c = 1) ∧
    (∀ c : ℚ, 95 ≤ c → c ≤ 100 → levelOf c = 10) := by
  refine ⟨fun c hc0 hc100 => ?_, fun c hc0 hc10 => ?_, fun c hc95 hc100 => ?_⟩
  · unfold levelOf
    rcases le_total (pyRound (c / 10)) 1 with h | h <;>
      rcases le_total (pyRound (c / 10)) 10 with h2 | h2 <;>
        simp [max_def, min_def] <;> omega
  · have h1 : (0 : ℚ) ≤ c / 10 := by positivity
    have h2 : c / 10 < 1 := by linarith
    have hf : ⌊c / 10⌋ = 0 := Int.floor_eq_zero_iff.mpr ⟨h1, h2⟩
    have hr : pyRound (c / 10) ≤ 1 := by
      have := pyRound_le_floor_add_one (c / 10)
      omega
    unfold levelOf
    rcases le_total (pyRound (c / 10)) 10 with h3 | h3 <;>
      simp [max_def, min_def] <;> omega
  · have hhalf : (19 : ℚ) / 2 ≤ c / 10 := by linarith
    have hub : c / 10 ≤ 10 := by linarith
    have hr : pyRound (c / 10) = 10 := by
      by_cases hq : c / 10 < 10
      · have hf : ⌊c / 10⌋ = 9 := by
          rw [Int.floor_eq_iff]
          constructor
          · push_cast
            linarith
          · push_cast
            linarith
        have : pyRound (c / 10) = 9 + 1 := by
          apply pyRound_half_up _ 9 hf
          · push_cast
            linarith
          · decide
        omega
      · have hq10 : c / 10 = 10 := le_antisymm hub (not_lt.mp hq)
        rw [hq10]
        norm_num [pyRound]
    unfold levelOf
    rw [hr]
    rfl

/-- C3 witness: the clamp formula at c = 50, level 1 at c = 5, level 10 at
c = 95. -/
theorem level_normalizer_clamp_witness :
    levelOf 50 = min (max (pyRound ((50 : ℚ) / 10)) 1) 10 ∧
    levelOf 5 = 1 ∧ levelOf 95 = 10 :=
  ⟨level_normalizer_clamp.1 50 (by norm_num) (by norm_num),
   level_normalizer_clamp.2.1 5 (by norm_num) (by norm_num),
   level_normalizer_clamp.2.2 95 (by norm_num) (by norm_num)⟩

/-- C9: for every backend outcome on which `detect_emotion` returns normally,
the returned level lies in [1,10], whatever the confidences were (the clamp
is applied unconditionally after the rounding); and the normalizer maps every
rational confidence, in range or not, into [1,10]. -/
theorem level_always_in_range :
    (∀ c : ℚ, 1 ≤ levelOf c ∧ levelOf c ≤ 10) ∧
    (∀ (oc : BackendOutcome) (e : String) (l : ℤ),
      detect_emotion oc = .ok (e, l) → 1 ≤ l ∧ l ≤ 10) := by
  refine ⟨levelOf_bounds, fun oc e l h => ?_⟩
  obtain ⟨c, rfl⟩ :=
    detectBody_ok_level oc e l ((detect_emotion_ok oc (e, l)).mp h)
  exact levelOf_bounds c

/-- C9 witness: a concrete successful analysis yields a level in [1,10]. -/
theorem level_always_in_range_witness : 1 ≤ (9 : ℤ) ∧ (9 : ℤ) ≤ 10 :=
  level_always_in_range.2 (.ret (.single ⟨[("happy", 923 / 10)]⟩)) "happy" 9
    (by norm_num [detect_emotion, detectBody, extractEmotions, dominantPair,
      maxFrom, pyGet, levelOf, pyRound])

theorem le_maxFrom_base (b : String × ℚ) (l : List (String × ℚ)) :
    b.2 ≤ (maxFrom b l).2 := by
  induction l generalizing b with
  | nil => exact le_refl _
  | cons y ys ih =>
    simp only [maxFrom]
    by_cases h : b.2 < y.2
    · rw [if_pos h]
      exact le_trans (le_of_lt h) (ih y)
    · rw [if_neg h]
      exact ih b

theorem le_maxFrom_mem (b : String × ℚ) (l : List (String × ℚ))
    (q : String × ℚ) (hq : q ∈ l) : q.2 ≤ (maxFrom b l).2 := by
  induction l generalizing b with
  | nil => cases hq
  | cons y ys ih =>
    simp only [maxFrom]
    rcases List.mem_cons.mp hq with rfl | hq2
    · by_cases h : b.2 < q.2
      · rw [if_pos h]
        exact le_maxFrom_base q ys
      · rw [if_neg h]
        exact le_trans (not_lt.mp h) (le_maxFrom_base b ys)
    · exact ih _ hq2

theorem maxFrom_mem (b : String × ℚ) (l : List (String × ℚ)) :
    maxFrom b l = b ∨ maxFrom b l ∈ l := by
  induction l generalizing b with
  | nil => exact Or.inl rfl
  | cons y ys ih =>
    simp only [maxFrom]
    by_cases h : b.2 < y.2
    · rw [if_pos h]
      rcases ih y with h2 | h2
      · refine Or.inr ?_
        rw [h2]
        exact List.mem_cons_self y ys
      · exact Or.inr (List.mem_cons_of_mem y h2)
    · rw [if_neg h]
      rcases ih b with h2 | h2
      · exact Or.inl h2
      · exact Or.inr (List.mem_cons_of_mem y h2)

/-- The element `maxFrom` returns is the running best: either the seed, or it
occurs in the list strictly later than every element not smaller than it —
the first-encountered maximum wins, since the loop replaces the best only on
a strictly greater value. -/
theorem maxFrom_first (b : String × ℚ) (l : List (String × ℚ)) :
    maxFrom b l = b ∨
    ∃ l₁ l₂, l = l₁ ++ maxFrom b l :: l₂ ∧ b.2 < (maxFrom b l).2 ∧
      ∀ q ∈ l₁, q.2 < (maxFrom b l).2 := by
  induction l generalizing b with
  | nil => exact Or.inl rfl
  | cons y ys ih =>
    by_cases h : b.2 < y.2
    · have hm : maxFrom b (y :: ys) = maxFrom y ys := by
        simp [maxFrom, h]
      rw [hm]
      rcases ih y with h2 | ⟨l₁, l₂, hsplit, hlt, hall⟩
      · refine Or.inr ⟨[], ys, ?_, ?_, ?_⟩
        · rw [h2]
          rfl
        · rw [h2]
          exact h
        · intro q hq
          cases hq
      · refine Or.inr ⟨y :: l₁, l₂, ?_, ?_, ?_⟩
        · rw [List.cons_append, ← hsplit]
        · exact lt_trans h hlt
        · intro q hq
          rcases List.mem_cons.mp hq with rfl | hq2
          · exact hlt
          · exact hall q hq2
    · have hm : maxFrom b (y :: ys) = maxFrom b ys := by
        simp [maxFrom, h]
      rw [hm]
      rcases ih b with h2 | ⟨l₁, l₂, hsplit, hlt, hall⟩
      · exact Or.inl h2
      · refine Or.inr ⟨y :: l₁, l₂, ?_, ?_, ?_⟩
        · rw [List.cons_append, ← hsplit]
        · exact hlt
        · intro q hq
          rcases List.mem_cons.mp hq with rfl | hq2
          · exact lt_of_le_of_lt (not_lt.mp h) hlt
          · exact hall q hq2

/-- C5: on every non-empty score mapping, the selected dominant pair is an
entry of the mapping, its confidence is the maximum confidence, and every
entry strictly before it in iteration order has a strictly smaller
confidence — the first-encountered maximum wins ties. -/
theorem dominant_first_max (x : String × ℚ) (xs : List (String × ℚ))
    (p : String × ℚ) (h : dominantPair (x :: xs) = some p) :
    p ∈ x :: xs ∧ (∀ q ∈ x :: xs, q.2 ≤ p.2) ∧
    ∃ l₁ l₂, x :: xs = l₁ ++ p :: l₂ ∧ ∀ q ∈ l₁, q.2 < p.2 := by
  have hp : maxFrom x xs = p := by
    simpa [dominantPair] using h
  subst hp
  refine ⟨?_, ?_, ?_⟩
  · rcases maxFrom_mem x xs with h2 | h2
    · rw [h2]
      exact List.mem_cons_self x xs
    · exact List.mem_cons_of_mem x h2
  · intro q hq
    rcases List.mem_cons.mp hq with rfl | hq2
    · exact le_maxFrom_base _ xs
    · exact le_maxFrom_mem x xs q hq2
  · rcases maxFrom_first x xs with h2 | ⟨l₁, l₂, hsplit, hlt, hall⟩
    · refine ⟨[], xs, ?_, ?_⟩
      · rw [h2]
        rfl
      · intro q hq
        cases hq
    · refine ⟨x :: l₁, l₂, ?_, ?_⟩
      · rw [List.cons_append, ← hsplit]
      · intro q hq
        rcases List.mem_cons.mp hq with rfl | hq2
        · exact hlt
        · exact hall q hq2

/-- C5 witness: an exact tie between two labels selects the
first-encountered one. -/
theorem dominant_first_max_witness :
    (("neutral", (50 : ℚ)) ∈ [("neutral", (50 : ℚ)), ("sad", 50)] ∧
      (∀ q ∈ [("neutral", (50 : ℚ)), ("sad", 50)], q.2 ≤ 50) ∧
      ∃ l₁ l₂, [("neutral", (50 : ℚ)), ("sad", 50)] =
        l₁ ++ ("neutral", (50 : ℚ)) :: l₂ ∧ ∀ q ∈ l₁, q.2 < 50) :=
  dominant_first_max ("neutral", 50) [("sad", 50)] ("neutral", 50)
    (by norm_num [dominantPair, maxFrom])

/-- C6: the adapter normalizes both backend return shapes to one score
mapping — a single result object contributes its emotion mapping, a sequence
contributes the emotion mapping of its first element, and a sequence headed
by an object is analyzed exactly as that object alone. -/
theorem shape_normalization :
    (∀ r : ResultObj, extractEmotions (.single r) = some r.emotion) ∧
    (∀ (r : ResultObj) (rs : List ResultObj),
      extractEmotions (.seq (r :: rs)) = some r.emotion) ∧
    (∀ (r : ResultObj) (rs : List ResultObj),
      detect_emotion (.ret (.seq (r :: rs))) =
        detect_emotion (.ret (.single r))) :=
  ⟨fun _ => rfl, fun _ _ => rfl, fun _ _ => rfl⟩

/-- C10: a backend return carrying an empty score mapping makes the selection
of the maximum fail with a ValueError whose message does not mention a face,
which the except clauses of `detect_emotion` translate to HTTP 400 carrying
that message. -/
theorem empty_scores_maps_to_400 :
    (∀ r : BackendReturn, extractEmotions r = some [] →
      detect_emotion (.ret r) = .error ⟨400, MAX_EMPTY_MSG⟩) ∧
    strContains MAX_EMPTY_MSG FACE_MSG = false := by
  refine ⟨fun r h => ?_, by decide⟩
  have hface : strContains MAX_EMPTY_MSG FACE_MSG = false := by decide
  simp [detect_emotion, detectBody, h, dominantPair, hface]

/-- C10 witness: a single result object with an empty mapping yields the
400 response with the empty-sequence message. -/
theorem empty_scores_maps_to_400_witness :
    detect_emotion (.ret (.single ⟨[]⟩)) = .error ⟨400, MAX_EMPTY_MSG⟩ :=
  empty_scores_maps_to_400.1 (.single ⟨[]⟩) rfl

/-- C1: whenever the request passes validation and `save_uploaded_file`
returns a path (temp-file paths are never the empty string), the `finally`
block invokes `cleanup_temp_file` on that path exactly once, on every exit of
the handler: normal success, a re-raised HTTPException of any kind, and any
other exception raised after acquisition. -/
theorem cleanup_exactly_once (filename path : String)
    (detectResult : Except PyError (String × ℤ))
    (hval : validate_image_format filename = true) (hpath : path ≠ "") :
    (analyze_emotion filename (.ok path) detectResult).cleanups = [path] ∧
    (analyze_emotion filename (.ok path) detectResult).cleanups.count path
      = 1 := by
  have hcl : (analyze_emotion filename (.ok path) detectResult).cleanups
      = [path] := by
    simp [analyze_emotion, save_uploaded_file, hval, pyTruthy, bne_iff_ne,
      hpath]
  refine ⟨hcl, ?_⟩
  rw [hcl]
  simp

/-- C1 witness: a concrete valid request with a successful save cleans up its
temp path exactly once. -/
theorem cleanup_exactly_once_witness :
    (analyze_emotion "face.jpg" (.ok "/tmp/x.jpg")
      (.ok ("happy", 9))).cleanups = ["/tmp/x.jpg"] ∧
    (analyze_emotion "face.jpg" (.ok "/tmp/x.jpg")
      (.ok ("happy", 9))).cleanups.count "/tmp/x.jpg" = 1 :=
  cleanup_exactly_once "face.jpg" "/tmp/x.jpg" (.ok ("happy", 9))
    (by decide) (by decide)

/-- C2: past validation and storage, a ValueError mentioning the face
substring yields 400 with the fixed no-face detail, any other ValueError
yields 400 with the message passed through, any other backend exception
yields 500 with a generic constant message, and a save failure yields 500
with a generic constant message. -/
theorem error_taxonomy (filename p m : String)
    (dr : Except PyError (String × ℤ))
    (hval : validate_image_format filename = true) :
    (strContains m FACE_MSG = true →
      (runRequest filename (.ok p) (.raiseValueError m)).response =
        .failure 400 "No face detected in the image") ∧
    (strContains m FACE_MSG = false →
      (runRequest filename (.ok p) (.raiseValueError m)).response =
        .failure 400 m) ∧
    (runRequest filename (.ok p) (.raiseOther m)).response =
      .failure 500 "Internal error during emotion analysis" ∧
    (analyze_emotion filename (.error ()) dr).response =
      .failure 500 "Failed to save uploaded file" := by
  refine ⟨fun hface => ?_, fun hface => ?_, ?_, ?_⟩
  · simp [runRequest, analyze_emotion, save_uploaded_file, detect_emotion,
      detectBody, liftHTTP, hval, hface]
  · simp [runRequest, analyze_emotion, save_uploaded_file, detect_emotion,
      detectBody, liftHTTP, hval, hface]
  · simp [runRequest, analyze_emotion, save_uploaded_file, detect_emotion,
      detectBody, liftHTTP, hval]
  · simp [analyze_emotion, save_uploaded_file, hval]

/-- C2 witness: the four failure mappings at concrete inputs. -/
theorem error_taxonomy_witness :
    (runRequest "a.png" (.ok "/tmp/t")
      (.raiseValueError "Face could not be detected in the image")).response
      = .failure 400 "No face detected in the image" ∧
    (runRequest "a.png" (.ok "/tmp/t")
      (.raiseValueError "corrupt data")).response = .failure 400
        "corrupt data" ∧
    (runRequest "a.png" (.ok "/tmp/t")
      (.raiseOther "model-load-failure")).response = .failure 500
        "Internal error during emotion analysis" ∧
    (analyze_emotion "a.png" (.error ()) (.ok ("x", 1))).response =
      .failure 500 "Failed to save uploaded file" :=
  ⟨(error_taxonomy "a.png" "/tmp/t" "Face could not be detected in the image"
      (.ok ("x", 1)) (by decide)).1 (by decide),
   (error_taxonomy "a.png" "/tmp/t" "corrupt data" (.ok ("x", 1))
      (by decide)).2.1 (by decide),
   (error_taxonomy "a.png" "/tmp/t" "model-load-failure" (.ok ("x", 1))
      (by decide)).2.2.1,
   (error_taxonomy "a.png" "/tmp/t" "" (.ok ("x", 1)) (by decide)).2.2.2⟩

/-- C4: `validate_image_format` accepts a filename exactly when the
lowercased pathlib suffix of the filename is in the accepted set; the check
is case-insensitive, and a filename with no suffix or an unknown suffix is
rejected by a normal false return. -/
theorem validate_format_spec :
    (∀ s, validate_image_format s = true ↔
      strLower (pathSuffix s) ∈ SUPPORTED_FORMATS) ∧
    validate_image_format "photo.JPG" = true ∧
    validate_image_format "photo.jpg" = true ∧
    validate_image_format "photo" = false ∧
    validate_image_format "photo.gif" = false := by
  refine ⟨fun s => ?_, by decide, by decide, by decide, by decide⟩
  simp [validate_image_format]

/-- C7: a request whose filename fails validation gets the 400
unsupported-format response with zero calls to `save_uploaded_file` and no
temp file ever created or cleaned. -/
theorem no_acquire_on_invalid (filename : String)
    (saveRes : Except Unit String) (detectResult : Except PyError (String × ℤ))
    (h : validate_image_format filename = false) :
    analyze_emotion filename saveRes detectResult =
      ⟨.failure 400 UNSUPPORTED_MSG, 0, []⟩ := by
  simp [analyze_emotion, h]

/-- C7 witness: an unsupported extension is rejected without acquisition. -/
theorem no_acquire_on_invalid_witness :
    analyze_emotion "photo.gif" (.ok "/tmp/t") (.ok ("x", 1)) =
      ⟨.failure 400 UNSUPPORTED_MSG, 0, []⟩ :=
  no_acquire_on_invalid "photo.gif" (.ok "/tmp/t") (.ok ("x", 1)) (by decide)

theorem cleanupState_not_mem (fs : FS) (p : String) (h : p ∉ fs.files) :
    cleanupState fs p = fs := by
  simp [cleanupState, cleanupBody, os_path_exists, h]

/-- C8: `cleanup_temp_file` always returns normally (every exception inside
is swallowed), is a no-op on a path that does not exist, and is idempotent on
the filesystem state. -/
theorem cleanup_total_idempotent (fs : FS) (p : String) :
    cleanup_temp_file fs p = .ok (cleanupState fs p) ∧
    (p ∉ fs.files → cleanupState fs p = fs) ∧
    cleanupState (cleanupState fs p) p = cleanupState fs p := by
  refine ⟨?_, fun h => cleanupState_not_mem fs p h, ?_⟩
  · unfold cleanup_temp_file cleanupState
    rcases cleanupBody fs p with e | fs2 <;> rfl
  · by_cases he : p ∈ fs.files
    · by_cases hf : p ∈ fs.failing
      · have hs : cleanupState fs p = fs := by
          simp [cleanupState, cleanupBody, os_path_exists, os_remove, he, hf]
        rw [hs]
        exact hs
      · have hs : cleanupState fs p =
            ⟨fs.files.filter (fun q => q != p), fs.failing⟩ := by
          simp [cleanupState, cleanupBody, os_path_exists, os_remove, he, hf]
        rw [hs]
        exact cleanupState_not_mem _ _ (by simp)
    · have hs := cleanupState_not_mem fs p he
      rw [hs]
      exact hs

/-- C8 witness: cleanup on a filesystem without the path returns normally,
leaves the state unchanged, and is idempotent. -/
theorem cleanup_total_idempotent_witness :
    cleanup_temp_file ⟨[], []⟩ "x" = .ok (cleanupState ⟨[], []⟩ "x") ∧
    cleanupState (⟨[], []⟩ : FS) "x" = ⟨[], []⟩ ∧
    cleanupState (cleanupState ⟨[], []⟩ "x") "x" =
      cleanupState ⟨[], []⟩ "x" :=
  ⟨(cleanup_total_idempotent ⟨[], []⟩ "x").1,
   (cleanup_total_idempotent ⟨[], []⟩ "x").2.1 (by simp),
   (cleanup_total_idempotent ⟨[], []⟩ "x").2.2⟩

end FaceEmotion
